import Mathlib

/-!
Shallow embedding of `thorlabs_CCS100.py` (Thorlabs CCS100 spectrometer
adaptor) and proofs about it.

The vendor DLL is modelled as an oracle (`Driver`) that supplies the value
returned by each successive driver query; the Python instance attributes are
the fields of `State`.  Each method of the `Spectrometer` class is embedded as
a function from a driver oracle and a state to a new state, paired with the
list of driver calls (and `time.sleep` events) the method issues, in order.
Machine integers (the `c_int32` status word) are modelled as the underlying
32-bit pattern, a `Nat`; Python floats are modelled as `ℚ`.
-/

set_option maxRecDepth 40000

namespace CCS100

/-- Events observable at the driver (DLL) boundary, plus `time.sleep` calls.
Each constructor corresponds to one `dll.*` entry point used by the adaptor. -/
inductive Cmd where
  | init
  | getDeviceInfo
  | getWavelengthData
  | getStatus
  | startScan
  | getScanData
  | getIntegrationTime
  | setIntegrationTime (t : ℚ)
  | sleep (t : ℚ)
  | close
deriving DecidableEq, Repr

/-- Oracle for the vendor DLL: the value each successive driver query returns.
`statusWords n` is the 32-bit status word produced by the `n`-th
`get_status` call, `integrationTimes n` the value read back by the `n`-th
`get_integration_time` call, and `scanData n i` the `i`-th of the 3648 pixel
values delivered by the `n`-th `get_scan_data` call. -/
structure Driver where
  deviceInfo : ℕ → String
  wavelengthData : ℕ → ℚ
  wavelengthMin : ℚ
  wavelengthMax : ℚ
  statusWords : ℕ → ℕ
  integrationTimes : ℕ → ℚ
  scanData : ℕ → ℕ → ℚ

/-- The five Boolean attributes `_get_status` derives from the status word. -/
structure StatusFlags where
  idle_soft_trig : Bool
  idle_ext_trig : Bool
  scan_starting : Bool
  scan_in_progress : Bool
  scan_ready : Bool
deriving DecidableEq, Repr

/-- Embeds the bit tests of `Spectrometer._get_status` (lines 71-77 of the
source): `bool(self.status.value & mask)` for the five masks. -/
def decodeStatus (w : ℕ) : StatusFlags where
  idle_soft_trig := w &&& 0x0002 != 0
  idle_ext_trig := w &&& 0x0080 != 0
  scan_starting := w &&& 0x0008 != 0
  scan_in_progress := w &&& 0x0004 != 0
  scan_ready := w &&& 0x0010 != 0

/-- The mutable attributes of a `Spectrometer` instance, together with three
counters recording how many times each driver query has been issued (these
index into the `Driver` oracle and are not Python attributes). -/
structure State where
  statusCalls : ℕ
  intTimeCalls : ℕ
  scanReads : ℕ
  device_info : List String
  wavelength_data : List ℚ
  wavelength_min : ℚ
  wavelength_max : ℚ
  status : ℕ
  status_idle_soft_trig : Bool
  status_idle_ext_trig : Bool
  status_scan_starting : Bool
  status_scan_in_progress : Bool
  status_scan_ready : Bool
  scan_data : List ℚ
  integration_time_s : ℚ
deriving DecidableEq, Repr

/-- Embeds `Spectrometer._get_status`: query the driver for a fresh status
word and refresh the status word and the five flag attributes.  Its trace is
the single call `Cmd.getStatus`. -/
def getStatusStep (d : Driver) (s : State) : State :=
  let w := d.statusWords s.statusCalls
  let f := decodeStatus w
  { s with
    statusCalls := s.statusCalls + 1
    status := w
    status_idle_soft_trig := f.idle_soft_trig
    status_idle_ext_trig := f.idle_ext_trig
    status_scan_starting := f.scan_starting
    status_scan_in_progress := f.scan_in_progress
    status_scan_ready := f.scan_ready }

/-- Embeds `Spectrometer.get_integration_time`: read the integration time
from the driver and store it in `integration_time_s`. -/
def getIntegrationTimeStep (d : Driver) (s : State) : State :=
  { s with
    intTimeCalls := s.intTimeCalls + 1
    integration_time_s := d.integrationTimes s.intTimeCalls }

/-- Embeds `Spectrometer._get_scan_data`: fetch the 3648-element intensity
buffer from the driver and store it in `scan_data`. -/
def getScanDataStep (d : Driver) (s : State) : State :=
  { s with
    scanReads := s.scanReads + 1
    scan_data := (List.range 3648).map (d.scanData s.scanReads) }

/-- Embeds the module-level `check_error` function: a non-zero driver status
code raises `UserWarning` carrying the numeric code (modelled as
`Except.error`), a zero code is returned unchanged. -/
def check_error (error_code : ℤ) : Except ℤ ℤ :=
  if error_code != 0 then Except.error error_code else Except.ok error_code

/-- Dynamically typed Python value passed to `set_integration_time`: an
`int`, a `float`, or a value of any other type. -/
inductive PyVal where
  | int (n : ℤ)
  | float (q : ℚ)
  | other
deriving DecidableEq, Repr

/-- Result of the two `isinstance` checks on line 123-124 of the source. -/
def PyVal.isNumeric : PyVal → Bool
  | .int _ => true
  | .float _ => true
  | .other => false

/-- Numeric value of a `PyVal` (only meaningful when `isNumeric`). -/
def PyVal.toRat : PyVal → ℚ
  | .int n => (n : ℚ)
  | .float q => q
  | .other => 0

/-- The three `assert` statements in `set_integration_time` that can raise
`AssertionError`. -/
inductive PyError where
  | typeAssert
  | rangeAssert
  | toleranceAssert
deriving DecidableEq, Repr

/-- Embeds `Spectrometer.set_integration_time`: assert the argument is an
`int` or `float`, assert `1e-5 <= integration_time_s <= 6e1`, pass the value
to the driver, read the integration time back via `get_integration_time`,
then assert the read-back value is within the 10 ms tolerance of the request.
The trace lists the driver calls issued, in order; an assertion failure
before the driver call leaves the trace empty. -/
def set_integration_time (d : Driver) (s : State) (t : PyVal) :
    Except PyError State × List Cmd :=
  if t.isNumeric = false then (Except.error PyError.typeAssert, [])
  else if (1 / 100000 : ℚ) ≤ t.toRat ∧ t.toRat ≤ 60 then
    let s1 := getIntegrationTimeStep d s
    let tr := [Cmd.setIntegrationTime t.toRat, Cmd.getIntegrationTime]
    if s1.integration_time_s ≤ t.toRat + 1 / 100 ∧
        t.toRat - 1 / 100 ≤ s1.integration_time_s then
      (Except.ok s1, tr)
    else
      (Except.error PyError.toleranceAssert, tr)
  else (Except.error PyError.rangeAssert, [])

/-- Embeds `Spectrometer.get_integration_time` together with its trace. -/
def get_integration_time_op (d : Driver) (s : State) : State × List Cmd :=
  (getIntegrationTimeStep d s, [Cmd.getIntegrationTime])

/-- Embeds the `while not self.status_scan_ready` polling loop of
`get_spectrum` (lines 151-155): sleep a tenth of the current integration time
then refresh the status, until the `scan_ready` flag is set.  The loop in the
source has no iteration bound; `fuel` caps how many iterations the embedding
unrolls, and `none` means the loop had not exited after `fuel` iterations. -/
def scanWait (d : Driver) : ℕ → State → Option State × List Cmd
  | 0, _ => (none, [])
  | fuel + 1, s =>
    if s.status_scan_ready then (some s, [])
    else
      let r := scanWait d fuel (getStatusStep d s)
      (r.1, Cmd.sleep (s.integration_time_s / 10) :: Cmd.getStatus :: r.2)

/-- Renders `'%0.3f' % q`: the value rounded to three decimal places. -/
def fmt3 (q : ℚ) : String :=
  let n : ℤ := round (q * 1000)
  let sign := if n < 0 then "-" else ""
  let frac := n.natAbs % 1000
  let fracStr :=
    if frac < 10 then "00" ++ toString frac
    else if frac < 100 then "0" ++ toString frac
    else toString frac
  sign ++ toString (n.natAbs / 1000) ++ "." ++ fracStr

/-- Renders `str(data)` for an intensity value (Python float `repr`,
modelled as the rational's string form). -/
def pyStr (q : ℚ) : String :=
  toString q

/-- The lines `get_spectrum` writes when given a filename (line 165-166):
one `file.write` per `zip(self.wavelength_data, self.scan_data)` pair. -/
def fileLines (s : State) : List String :=
  List.zipWith (fun wave data => fmt3 wave ++ ":" ++ pyStr data ++ "\n")
    s.wavelength_data s.scan_data

/-- A file created by `open(filename + ".txt", "w")` and its written lines. -/
structure FileWrite where
  path : String
  lines : List String
deriving DecidableEq, Repr

/-- Outcome of `get_spectrum`: `notReady s` models the early `return None`
when `status_idle_soft_trig` is false; `hang` means the polling loop had not
exited within the available fuel (in the source the call never returns);
`ok s fw` models the normal return of `(wavelength_data, scan_data)` from
state `s`, with `fw` the file written when a filename was supplied. -/
inductive SpectrumResult where
  | notReady (s : State)
  | hang
  | ok (s : State) (fw : Option FileWrite)
deriving DecidableEq, Repr

/-- Embeds `Spectrometer.get_spectrum`: refresh the status; if the
idle/software-trigger flag is clear, print and return `None`; otherwise start
a scan, poll until `scan_ready`, fetch the scan data, and, when a filename is
given, write one line per wavelength/intensity pair to `filename + ".txt"`. -/
def get_spectrum (d : Driver) (fuel : ℕ) (s : State) (filename : Option String) :
    SpectrumResult × List Cmd :=
  let s1 := getStatusStep d s
  if s1.status_idle_soft_trig = false then
    (SpectrumResult.notReady s1, [Cmd.getStatus])
  else
    match scanWait d fuel s1 with
    | (none, wtr) => (SpectrumResult.hang, Cmd.getStatus :: Cmd.startScan :: wtr)
    | (some s2, wtr) =>
      let s3 := getScanDataStep d s2
      let fw := filename.map (fun fn => FileWrite.mk (fn ++ ".txt") (fileLines s3))
      (SpectrumResult.ok s3 fw,
        Cmd.getStatus :: Cmd.startScan :: (wtr ++ [Cmd.getScanData]))

/-- Embeds `Spectrometer.__init__` (after storing the constructor flags):
open the instrument, then `_get_device_info`, `_get_wavelength_data`,
`_get_status`, `get_integration_time`, in that order, starting from an
instance with no attributes yet (all-default fields). -/
def init_spectrometer (d : Driver) : State × List Cmd :=
  let s0 : State :=
    { statusCalls := 0, intTimeCalls := 0, scanReads := 0
      device_info := [], wavelength_data := []
      wavelength_min := 0, wavelength_max := 0
      status := 0
      status_idle_soft_trig := false, status_idle_ext_trig := false
      status_scan_starting := false, status_scan_in_progress := false
      status_scan_ready := false
      scan_data := [], integration_time_s := 0 }
  let s1 := { s0 with device_info := (List.range 5).map d.deviceInfo }
  let s2 := { s1 with
    wavelength_data := (List.range 3648).map d.wavelengthData
    wavelength_min := d.wavelengthMin
    wavelength_max := d.wavelengthMax }
  let s3 := getStatusStep d s2
  let s4 := getIntegrationTimeStep d s3
  (s4, [Cmd.init, Cmd.getDeviceInfo, Cmd.getWavelengthData,
        Cmd.getStatus, Cmd.getIntegrationTime])

/-- Embeds `Spectrometer.close`: issue `dll.close(self.handle)`; no attribute
is cleared, so the state is unchanged. -/
def close_op (s : State) : State × List Cmd :=
  (s, [Cmd.close])

/-- A public method invocation on an opened `Spectrometer`, as a client of
the class may issue them in any order. -/
inductive Call where
  | getIntegrationTime
  | setIntegrationTime (t : PyVal)
  | getSpectrum (fuel : ℕ) (filename : Option String)
  | close
deriving DecidableEq, Repr

/-- Runs one public method call, returning the resulting state and the trace
of driver calls it issued. -/
def runCall (d : Driver) (s : State) : Call → State × List Cmd
  | .getIntegrationTime => get_integration_time_op d s
  | .setIntegrationTime t =>
    match set_integration_time d s t with
    | (Except.ok s1, tr) => (s1, tr)
    | (Except.error _, tr) => (s, tr)
  | .getSpectrum fuel fn =>
    match get_spectrum d fuel s fn with
    | (SpectrumResult.notReady s1, tr) => (s1, tr)
    | (SpectrumResult.hang, tr) => (s, tr)
    | (SpectrumResult.ok s1 _, tr) => (s1, tr)
  | .close => close_op s

/-- Runs a sequence of public method calls from a state, concatenating the
driver-call traces. -/
def runCalls (d : Driver) (s : State) : List Call → State × List Cmd
  | [] => (s, [])
  | c :: cs =>
    let r := runCall d s c
    let r2 := runCalls d r.1 cs
    (r2.1, r.2 ++ r2.2)

/-! Concrete fixtures used by the witness theorems.  `dW` answers every
status query with 0x0012 (idle/software-trigger-ready and scan-ready both
set); `dW0` answers with 0 (no flag set). -/

/-- Concrete driver oracle whose status word is always 0x0012. -/
def dW : Driver where
  deviceInfo := fun _ => "Thorlabs"
  wavelengthData := fun _ => 500
  wavelengthMin := 350
  wavelengthMax := 700
  statusWords := fun _ => 0x0012
  integrationTimes := fun _ => 1 / 10
  scanData := fun _ _ => 0

/-- Concrete driver oracle whose status word is always 0. -/
def dW0 : Driver :=
  { dW with statusWords := fun _ => 0 }

/-- State of a freshly constructed spectrometer on driver `dW`. -/
def sW : State :=
  (init_spectrometer dW).1

/-- State of a freshly constructed spectrometer on driver `dW0`. -/
def sW0 : State :=
  (init_spectrometer dW0).1

/-- State after the successful scan of the C6/C10 witness run. -/
def s1W : State :=
  getScanDataStep dW (getStatusStep dW sW)

/-- File produced by the C6/C10 witness run. -/
def fwoW : Option FileWrite :=
  some (FileWrite.mk ("spectrum" ++ ".txt") (fileLines s1W))

/-! Helper lemmas shared by several claims. -/

/-- A single-bit mask test is the corresponding `testBit`. -/
theorem land_two_pow_ne_zero (w i : ℕ) : (w &&& 2 ^ i != 0) = w.testBit i := by
  rw [Nat.and_two_pow]
  cases h : w.testBit i <;>
    simp [h, Nat.pos_iff_ne_zero, Nat.pos_pow_of_pos]

/-- The five decoded flags are bits 1, 7, 3, 2, 4 of the status word. -/
theorem decodeStatus_eq_testBits (w : ℕ) :
    decodeStatus w =
      ⟨w.testBit 1, w.testBit 7, w.testBit 3, w.testBit 2, w.testBit 4⟩ := by
  have h1 := land_two_pow_ne_zero w 1
  have h7 := land_two_pow_ne_zero w 7
  have h3 := land_two_pow_ne_zero w 3
  have h2 := land_two_pow_ne_zero w 2
  have h4 := land_two_pow_ne_zero w 4
  norm_num at h1 h7 h3 h2 h4
  simp [decodeStatus, h1, h7, h3, h2, h4]

theorem getStatusStep_idle_soft (d : Driver) (s : State) :
    (getStatusStep d s).status_idle_soft_trig =
      (d.statusWords s.statusCalls).testBit 1 := by
  simp [getStatusStep, decodeStatus_eq_testBits]

theorem getStatusStep_scan_ready (d : Driver) (s : State) :
    (getStatusStep d s).status_scan_ready =
      (d.statusWords s.statusCalls).testBit 4 := by
  simp [getStatusStep, decodeStatus_eq_testBits]

/-- When the freshly read status word has bit 1 clear, `get_spectrum` is the
early `return None` with a single `get_status` driver call. -/
theorem get_spectrum_abort (d : Driver) (fuel : ℕ) (s : State) (fn : Option String)
    (h : Nat.testBit (d.statusWords s.statusCalls) 1 = false) :
    get_spectrum d fuel s fn =
      (SpectrumResult.notReady (getStatusStep d s), [Cmd.getStatus]) := by
  have hflag : (getStatusStep d s).status_idle_soft_trig = false := by
    rw [getStatusStep_idle_soft, h]
  unfold get_spectrum
  rw [if_pos hflag]

/-- C2: for every status word, `_get_status` derives `idle_soft_trig` from
bit 1 (mask 0x0002), `idle_ext_trig` from bit 7 (mask 0x0080),
`scan_starting` from bit 3 (mask 0x0008), `scan_in_progress` from bit 2
(mask 0x0004) and `scan_ready` from bit 4 (mask 0x0010); in particular the
word 0x0010 sets only `scan_ready` and the word 0x0002 sets only
`idle_soft_trig`. -/
theorem c2_status_bit_decode (w : ℕ) :
    (decodeStatus w).idle_soft_trig = w.testBit 1 ∧
    (decodeStatus w).idle_ext_trig = w.testBit 7 ∧
    (decodeStatus w).scan_starting = w.testBit 3 ∧
    (decodeStatus w).scan_in_progress = w.testBit 2 ∧
    (decodeStatus w).scan_ready = w.testBit 4 ∧
    decodeStatus 0x0010 = ⟨false, false, false, false, true⟩ ∧
    decodeStatus 0x0002 = ⟨true, false, false, false, false⟩ := by
  refine ⟨?_, ?_, ?_, ?_, ?_, by decide, by decide⟩ <;>
    rw [decodeStatus_eq_testBits]

/-- Witness for C2 at the concrete status word 0x0012. -/
theorem c2_status_bit_decode_witness :
    (decodeStatus 0x0012).idle_soft_trig = Nat.testBit 0x0012 1 := by
  exact (c2_status_bit_decode 0x0012).1

/-- C5: `check_error` fails (raising a `UserWarning` that carries the numeric
status code, and nothing else) exactly on a non-zero code, and returns a zero
code unchanged. -/
theorem c5_check_error (e : ℤ) :
    (check_error e = Except.error e ↔ e ≠ 0) ∧
    (check_error e = Except.ok e ↔ e = 0) ∧
    (∀ c, check_error e = Except.error c → c = e) ∧
    (∀ v, check_error e = Except.ok v → v = e) := by
  unfold check_error
  by_cases h : e = 0 <;> simp [h]

/-- Witness for C5 at the concrete non-zero code 5 and the zero code 0. -/
theorem c5_check_error_witness :
    check_error 5 = Except.error 5 ∧ check_error 0 = Except.ok 0 :=
  ⟨(c5_check_error 5).1.mpr (by decide), (c5_check_error 0).2.1.mpr rfl⟩

/-- C1: for a numeric argument in [1e-5, 60], `set_integration_time` passes
the value to the driver and reads it back, succeeding exactly when the stored
read-back value is within 0.01 s of the request (otherwise the post-set
assertion fails); a non-numeric argument or a value outside the range raises
an assertion with no driver call issued. -/
theorem c1_set_integration_time_contract (d : Driver) (s : State) (t : PyVal) :
    (t.isNumeric = true → (1 / 100000 : ℚ) ≤ t.toRat → t.toRat ≤ 60 →
      (set_integration_time d s t).2 =
        [Cmd.setIntegrationTime t.toRat, Cmd.getIntegrationTime] ∧
      (∀ s1, (set_integration_time d s t).1 = Except.ok s1 →
        s1.integration_time_s = d.integrationTimes s.intTimeCalls ∧
        |s1.integration_time_s - t.toRat| ≤ 1 / 100) ∧
      (¬ |d.integrationTimes s.intTimeCalls - t.toRat| ≤ 1 / 100 →
        (set_integration_time d s t).1 = Except.error PyError.toleranceAssert)) ∧
    (t.isNumeric = false →
      set_integration_time d s t = (Except.error PyError.typeAssert, [])) ∧
    (t.isNumeric = true → ¬ ((1 / 100000 : ℚ) ≤ t.toRat ∧ t.toRat ≤ 60) →
      set_integration_time d s t = (Except.error PyError.rangeAssert, [])) := by
  have hrb : (getIntegrationTimeStep d s).integration_time_s =
      d.integrationTimes s.intTimeCalls := rfl
  refine ⟨?_, ?_, ?_⟩
  · intro hnum h1 h2
    have hnum' : ¬ (t.isNumeric = false) := by simp [hnum]
    have hcond : ((1 / 100000 : ℚ) ≤ t.toRat ∧ t.toRat ≤ 60) := ⟨h1, h2⟩
    unfold set_integration_time
    rw [if_neg hnum', if_pos hcond]
    by_cases htol :
        (getIntegrationTimeStep d s).integration_time_s ≤ t.toRat + 1 / 100 ∧
        t.toRat - 1 / 100 ≤ (getIntegrationTimeStep d s).integration_time_s
    · rw [if_pos htol]
      refine ⟨rfl, ?_, ?_⟩
      · intro s1 hs1
        have hs1' : getIntegrationTimeStep d s = s1 := by
          simpa using hs1
        subst hs1'
        refine ⟨hrb, ?_⟩
        rw [abs_sub_le_iff]
        constructor <;> linarith [htol.1, htol.2]
      · intro habs
        exfalso
        apply habs
        rw [abs_sub_le_iff]
        rw [hrb] at htol
        constructor <;> linarith [htol.1, htol.2]
    · rw [if_neg htol]
      refine ⟨rfl, ?_, fun _ => rfl⟩
      intro s1 hs1
      exact absurd hs1 (by simp)
  · intro hnum
    unfold set_integration_time
    rw [if_pos hnum]
  · intro hnum hrange
    have hnum' : ¬ (t.isNumeric = false) := by simp [hnum]
    unfold set_integration_time
    rw [if_neg hnum', if_neg hrange]

/-- Witness for C1: requesting 0.1 s on a driver that reads back 0.1 s issues
exactly the set call followed by the read-back call. -/
theorem c1_set_integration_time_witness :
    (PyVal.float (1 / 10)).isNumeric = true ∧
    (set_integration_time dW sW (PyVal.float (1 / 10))).2 =
      [Cmd.setIntegrationTime ((PyVal.float (1 / 10)).toRat),
        Cmd.getIntegrationTime] :=
  ⟨rfl,
    ((c1_set_integration_time_contract dW sW (PyVal.float (1 / 10))).1 rfl
      (by norm_num [PyVal.toRat]) (by norm_num [PyVal.toRat])).1⟩

/-- C3: when the freshly read status word has the idle/software-trigger bit
(0x0002) clear, `get_spectrum` returns `None` after the single status query:
no start-scan command is issued and no scan data is fetched. -/
theorem c3_not_ready_no_scan (d : Driver) (fuel : ℕ) (s : State) (fn : Option String)
    (h : Nat.testBit (d.statusWords s.statusCalls) 1 = false) :
    (get_spectrum d fuel s fn).1 = SpectrumResult.notReady (getStatusStep d s) ∧
    (get_spectrum d fuel s fn).2 = [Cmd.getStatus] ∧
    Cmd.startScan ∉ (get_spectrum d fuel s fn).2 ∧
    Cmd.getScanData ∉ (get_spectrum d fuel s fn).2 := by
  rw [get_spectrum_abort d fuel s fn h]
  refine ⟨rfl, rfl, by simp, by simp⟩

/-- Witness for C3 on a driver whose status word is always 0. -/
theorem c3_not_ready_no_scan_witness :
    (get_spectrum dW0 2 sW0 none).2 = [Cmd.getStatus] :=
  (c3_not_ready_no_scan dW0 2 sW0 none (by decide)).2.1

/-- C9: when `get_spectrum` aborts because the idle/software-trigger bit is
clear, the stored `scan_data`, `wavelength_data` and `integration_time_s`
are unchanged; only the status word and the five flag attributes are
refreshed, from the fresh status word's bits. -/
theorem c9_abort_frame (d : Driver) (fuel : ℕ) (s : State) (fn : Option String)
    (h : Nat.testBit (d.statusWords s.statusCalls) 1 = false) :
    (get_spectrum d fuel s fn).1 = SpectrumResult.notReady (getStatusStep d s) ∧
    (getStatusStep d s).scan_data = s.scan_data ∧
    (getStatusStep d s).wavelength_data = s.wavelength_data ∧
    (getStatusStep d s).integration_time_s = s.integration_time_s ∧
    (getStatusStep d s).device_info = s.device_info ∧
    (getStatusStep d s).wavelength_min = s.wavelength_min ∧
    (getStatusStep d s).wavelength_max = s.wavelength_max ∧
    (getStatusStep d s).status = d.statusWords s.statusCalls ∧
    (getStatusStep d s).status_idle_soft_trig =
      (d.statusWords s.statusCalls).testBit 1 ∧
    (getStatusStep d s).status_idle_ext_trig =
      (d.statusWords s.statusCalls).testBit 7 ∧
    (getStatusStep d s).status_scan_starting =
      (d.statusWords s.statusCalls).testBit 3 ∧
    (getStatusStep d s).status_scan_in_progress =
      (d.statusWords s.statusCalls).testBit 2 ∧
    (getStatusStep d s).status_scan_ready =
      (d.statusWords s.statusCalls).testBit 4 := by
  refine ⟨?_, rfl, rfl, rfl, rfl, rfl, rfl, rfl, ?_, ?_, ?_, ?_, ?_⟩
  · rw [get_spectrum_abort d fuel s fn h]
  all_goals simp [getStatusStep, decodeStatus_eq_testBits]

/-- The polling loop only ever issues `sleep` and `get_status`, each sleep
being a tenth of the integration time at loop entry (the loop body never
changes `integration_time_s`). -/
theorem scanWait_trace_shape (d : Driver) :
    ∀ (fuel : ℕ) (s : State) (c : Cmd), c ∈ (scanWait d fuel s).2 →
      c = Cmd.sleep (s.integration_time_s / 10) ∨ c = Cmd.getStatus := by
  intro fuel
  induction fuel with
  | zero => intro s c hc; simp [scanWait] at hc
  | succ n ih =>
    intro s c hc
    by_cases hr : s.status_scan_ready
    · simp [scanWait, hr] at hc
    · simp only [scanWait, hr] at hc
      simp only [Bool.false_eq_true, if_false, List.mem_cons] at hc
      rcases hc with hc | hc | hc
      · exact Or.inl hc
      · exact Or.inr hc
      · have hpres : (getStatusStep d s).integration_time_s =
            s.integration_time_s := rfl
        rcases ih (getStatusStep d s) c hc with h1 | h1
        · rw [h1, hpres]; exact Or.inl rfl
        · exact Or.inr h1

/-- If the polling loop exits, the state it exits with has `scan_ready` set,
and the loop body preserved every non-status attribute. -/
theorem scanWait_some (d : Driver) :
    ∀ (fuel : ℕ) (s s1 : State) (tr : List Cmd),
      scanWait d fuel s = (some s1, tr) →
      s1.status_scan_ready = true ∧
      s1.wavelength_data = s.wavelength_data ∧
      s1.integration_time_s = s.integration_time_s ∧
      s1.scan_data = s.scan_data ∧
      s1.device_info = s.device_info ∧
      s1.scanReads = s.scanReads := by
  intro fuel
  induction fuel with
  | zero => intro s s1 tr h; simp [scanWait] at h
  | succ n ih =>
    intro s s1 tr h
    by_cases hr : s.status_scan_ready
    · simp only [scanWait, hr, if_true, Prod.mk.injEq, Option.some.injEq] at h
      rcases h with ⟨h1, -⟩
      subst h1
      exact ⟨hr, rfl, rfl, rfl, rfl, rfl⟩
    · simp only [scanWait, hr, Bool.false_eq_true, if_false,
        Prod.mk.injEq] at h
      rcases h with ⟨h1, -⟩
      rcases hrec : scanWait d n (getStatusStep d s) with ⟨r1, r2⟩
      rw [hrec] at h1
      simp only at h1
      subst h1
      exact ih (getStatusStep d s) s1 r2 hrec

/-- If no status word the driver ever produces has the scan-ready bit set and
the loop is entered with `scan_ready` clear, the loop never exits. -/
theorem scanWait_never_ready (d : Driver)
    (hnever : ∀ n, Nat.testBit (d.statusWords n) 4 = false) :
    ∀ (fuel : ℕ) (s : State), s.status_scan_ready = false →
      (scanWait d fuel s).1 = none := by
  intro fuel
  induction fuel with
  | zero => intro s _; simp [scanWait]
  | succ n ih =>
    intro s hs
    have hnext : (getStatusStep d s).status_scan_ready = false := by
      rw [getStatusStep_scan_ready, hnever]
    simp only [scanWait, hs, Bool.false_eq_true, if_false]
    exact ih (getStatusStep d s) hnext

/-- When the idle flag of the fresh status is set and the polling loop never
exits, `get_spectrum` hangs after `get_status`, `start_scan` and the loop's
own trace. -/
theorem get_spectrum_eq_hang (d : Driver) (fuel : ℕ) (s : State)
    (fn : Option String) (wtr : List Cmd)
    (hflag : (getStatusStep d s).status_idle_soft_trig = true)
    (hsw : scanWait d fuel (getStatusStep d s) = (none, wtr)) :
    get_spectrum d fuel s fn =
      (SpectrumResult.hang, Cmd.getStatus :: Cmd.startScan :: wtr) := by
  unfold get_spectrum
  rw [if_neg (by rw [hflag]; simp), hsw]

/-- When the idle flag of the fresh status is set and the polling loop exits
in state `s2`, `get_spectrum` fetches the scan data and returns it, writing
the file when a filename was given. -/
theorem get_spectrum_eq_ok (d : Driver) (fuel : ℕ) (s : State)
    (fn : Option String) (s2 : State) (wtr : List Cmd)
    (hflag : (getStatusStep d s).status_idle_soft_trig = true)
    (hsw : scanWait d fuel (getStatusStep d s) = (some s2, wtr)) :
    get_spectrum d fuel s fn =
      (SpectrumResult.ok (getScanDataStep d s2)
        (fn.map (fun n =>
          FileWrite.mk (n ++ ".txt") (fileLines (getScanDataStep d s2)))),
       Cmd.getStatus :: Cmd.startScan :: (wtr ++ [Cmd.getScanData])) := by
  unfold get_spectrum
  rw [if_neg (by rw [hflag]; simp), hsw]

/-- C4: after the start command `get_spectrum` polls the status, sleeping one
tenth of the current integration time between reads, and the loop exits only
when a read status has the scan-ready bit set; the loop has no iteration
bound, so on a driver that never sets the scan-ready bit no scan data is
ever fetched and the call never returns a spectrum, however much fuel the
loop is given. -/
theorem c4_poll_until_ready (d : Driver) (fuel : ℕ) (s : State) (fn : Option String)
    (hnever : ∀ n, Nat.testBit (d.statusWords n) 4 = false) :
    Cmd.getScanData ∉ (get_spectrum d fuel s fn).2 ∧
    (∀ s1 fw, (get_spectrum d fuel s fn).1 ≠ SpectrumResult.ok s1 fw) ∧
    (∀ (f2 : ℕ) (s0 s1 : State) (tr : List Cmd),
      scanWait d f2 s0 = (some s1, tr) → s1.status_scan_ready = true) ∧
    (∀ q, Cmd.sleep q ∈ (get_spectrum d fuel s fn).2 →
      q = s.integration_time_s / 10) := by
  have hexit := fun f2 s0 s1 tr h => (scanWait_some d f2 s0 s1 tr h).1
  by_cases hflag : (getStatusStep d s).status_idle_soft_trig = false
  · have hb : Nat.testBit (d.statusWords s.statusCalls) 1 = false := by
      rw [← getStatusStep_idle_soft]; exact hflag
    rw [get_spectrum_abort d fuel s fn hb]
    exact ⟨by simp, by simp, hexit, by simp⟩
  · have hflag' : (getStatusStep d s).status_idle_soft_trig = true := by
      rcases Bool.eq_false_or_eq_true
          ((getStatusStep d s).status_idle_soft_trig) with h | h
      · exact h
      · exact absurd h hflag
    have hready0 : (getStatusStep d s).status_scan_ready = false := by
      rw [getStatusStep_scan_ready, hnever]
    have hnone := scanWait_never_ready d hnever fuel (getStatusStep d s) hready0
    rcases hsw : scanWait d fuel (getStatusStep d s) with ⟨r1, wtr⟩
    rw [hsw] at hnone
    simp at hnone
    subst hnone
    rw [get_spectrum_eq_hang d fuel s fn wtr hflag' hsw]
    refine ⟨?_, by simp, hexit, ?_⟩
    · intro hmem
      simp only [List.mem_cons] at hmem
      rcases hmem with h | h | h
      · exact Cmd.noConfusion h
      · exact Cmd.noConfusion h
      · rcases scanWait_trace_shape d fuel (getStatusStep d s) _
            (by rw [hsw]; exact h) with h1 | h1 <;>
          exact Cmd.noConfusion h1
    · intro q hmem
      simp only [List.mem_cons] at hmem
      rcases hmem with h | h | h
      · exact Cmd.noConfusion h
      · exact Cmd.noConfusion h
      · rcases scanWait_trace_shape d fuel (getStatusStep d s) _
            (by rw [hsw]; exact h) with h1 | h1
        · exact Cmd.sleep.inj h1
        · exact Cmd.noConfusion h1

/-- Witness for C4 on a driver whose status word is always 0: the trace of a
two-iteration run contains no scan-data fetch. -/
theorem c4_poll_until_ready_witness :
    Cmd.getScanData ∉ (get_spectrum dW0 2 sW0 none).2 :=
  (c4_poll_until_ready dW0 2 sW0 none (fun _ => Nat.zero_testBit 4)).1

/-- Inversion: a `get_spectrum` call that returns a spectrum went through the
polling loop and fetched the scan data, and the file option is the filename
mapped to `filename + ".txt"` with the zipped lines. -/
theorem get_spectrum_ok_inv (d : Driver) (fuel : ℕ) (s : State)
    (fn : Option String) (s1 : State) (fwo : Option FileWrite)
    (h : (get_spectrum d fuel s fn).1 = SpectrumResult.ok s1 fwo) :
    ∃ s2 wtr, scanWait d fuel (getStatusStep d s) = (some s2, wtr) ∧
      s1 = getScanDataStep d s2 ∧
      fwo = fn.map (fun n => FileWrite.mk (n ++ ".txt") (fileLines s1)) := by
  by_cases hflag : (getStatusStep d s).status_idle_soft_trig = false
  · have hb : Nat.testBit (d.statusWords s.statusCalls) 1 = false := by
      rw [← getStatusStep_idle_soft]; exact hflag
    rw [get_spectrum_abort d fuel s fn hb] at h
    simp at h
  · have hflag' : (getStatusStep d s).status_idle_soft_trig = true := by
      rcases Bool.eq_false_or_eq_true
          ((getStatusStep d s).status_idle_soft_trig) with h1 | h1
      · exact h1
      · exact absurd h1 hflag
    rcases hsw : scanWait d fuel (getStatusStep d s) with ⟨r1, wtr⟩
    cases r1 with
    | none =>
      rw [get_spectrum_eq_hang d fuel s fn wtr hflag' hsw] at h
      simp at h
    | some s2 =>
      rw [get_spectrum_eq_ok d fuel s fn s2 wtr hflag' hsw] at h
      simp only [SpectrumResult.ok.injEq] at h
      rcases h with ⟨h1, h2⟩
      refine ⟨s2, wtr, rfl, h1.symm, ?_⟩
      rw [← h2, h1]

/-- C6: the wavelength and intensity arrays each have the fixed length 3648,
and the file written by `get_spectrum` has exactly one line per index `i`,
the wavelength at `i` rendered with `%0.3f`, a colon, then the intensity at
the same index `i`. -/
theorem c6_file_lines (d : Driver) (fuel : ℕ) (s : State) (fn : String)
    (s1 : State) (fwo : Option FileWrite)
    (hw : s.wavelength_data.length = 3648)
    (h : (get_spectrum d fuel s (some fn)).1 = SpectrumResult.ok s1 fwo) :
    s1.wavelength_data.length = 3648 ∧
    s1.scan_data.length = 3648 ∧
    fwo = some (FileWrite.mk (fn ++ ".txt") (fileLines s1)) ∧
    (fileLines s1).length = 3648 ∧
    ∀ (i : ℕ) (h1 : i < (fileLines s1).length)
      (h2 : i < s1.wavelength_data.length) (h3 : i < s1.scan_data.length),
      (fileLines s1)[i] =
        fmt3 (s1.wavelength_data[i]) ++ ":" ++ pyStr (s1.scan_data[i]) ++ "\n" := by
  rcases get_spectrum_ok_inv d fuel s (some fn) s1 fwo h with
    ⟨s2, wtr, hsw, hs1, hfwo⟩
  have hpres := scanWait_some d fuel (getStatusStep d s) s2 wtr hsw
  have hwl : s1.wavelength_data = s.wavelength_data := by
    rw [hs1]
    show s2.wavelength_data = s.wavelength_data
    rw [hpres.2.1]
    rfl
  have hwlen : s1.wavelength_data.length = 3648 := by rw [hwl, hw]
  have hsd : s1.scan_data =
      (List.range 3648).map (d.scanData s2.scanReads) := by
    rw [hs1]
    rfl
  have hslen : s1.scan_data.length = 3648 := by rw [hsd]; simp
  have hflen : (fileLines s1).length = 3648 := by
    rw [fileLines, List.length_zipWith, hwlen, hslen]
    exact min_self 3648
  refine ⟨hwlen, hslen, by rw [hfwo]; rfl, hflen, ?_⟩
  intro i h1 h2 h3
  simp only [fileLines, List.getElem_zipWith]

/-- Witness for C6: a driver that reports status 0x0012 yields a complete
scan whose arrays and file all have length 3648. -/
theorem init_wavelength_data (d : Driver) :
    (init_spectrometer d).1.wavelength_data =
      (List.range 3648).map d.wavelengthData :=
  rfl

theorem c6_file_lines_witness :
    sW.wavelength_data.length = 3648 ∧ s1W.scan_data.length = 3648 ∧
    (fileLines s1W).length = 3648 := by
  have hwW : sW.wavelength_data.length = 3648 := by
    rw [show sW.wavelength_data = (List.range 3648).map dW.wavelengthData from
      init_wavelength_data dW]
    simp
  have hflagW : (getStatusStep dW sW).status_idle_soft_trig = true := by decide
  have hreadyW : (getStatusStep dW sW).status_scan_ready = true := by decide
  have hswW : scanWait dW 1 (getStatusStep dW sW) =
      (some (getStatusStep dW sW), []) := by
    unfold scanWait
    rw [if_pos hreadyW]
  have hW : (get_spectrum dW 1 sW (some "spectrum")).1 =
      SpectrumResult.ok s1W fwoW := by
    rw [get_spectrum_eq_ok dW 1 sW (some "spectrum") (getStatusStep dW sW) []
      hflagW hswW]
    rfl
  have hc := c6_file_lines dW 1 sW "spectrum" s1W fwoW hwW hW
  exact ⟨hwW, hc.2.1, hc.2.2.2.1⟩

/-- C10: whenever `get_spectrum` is given a filename and completes a scan,
the file it creates is named by appending the literal suffix ".txt" to the
given filename string. -/
theorem c10_txt_suffix (d : Driver) (fuel : ℕ) (s : State) (fn : String)
    (s1 : State) (fwo : Option FileWrite)
    (h : (get_spectrum d fuel s (some fn)).1 = SpectrumResult.ok s1 fwo) :
    fwo = some (FileWrite.mk (fn ++ ".txt") (fileLines s1)) ∧
    ∀ fw, fwo = some fw → fw.path = fn ++ ".txt" := by
  rcases get_spectrum_ok_inv d fuel s (some fn) s1 fwo h with
    ⟨s2, wtr, hsw, hs1, hfwo⟩
  refine ⟨by rw [hfwo]; rfl, ?_⟩
  intro fw hfw
  rw [hfwo] at hfw
  simp only [Option.map_some', Option.some.injEq] at hfw
  rw [← hfw]

/-- Witness for C10 on the same concrete successful run as C6. -/
theorem c10_txt_suffix_witness :
    fwoW = some (FileWrite.mk ("spectrum" ++ ".txt") (fileLines s1W)) := by
  have hflagW : (getStatusStep dW sW).status_idle_soft_trig = true := by decide
  have hreadyW : (getStatusStep dW sW).status_scan_ready = true := by decide
  have hswW : scanWait dW 1 (getStatusStep dW sW) =
      (some (getStatusStep dW sW), []) := by
    unfold scanWait
    rw [if_pos hreadyW]
  have hW : (get_spectrum dW 1 sW (some "spectrum")).1 =
      SpectrumResult.ok s1W fwoW := by
    rw [get_spectrum_eq_ok dW 1 sW (some "spectrum") (getStatusStep dW sW) []
      hflagW hswW]
    rfl
  exact (c10_txt_suffix dW 1 sW "spectrum" s1W fwoW hW).1

/-- The trace of `set_integration_time` is either empty (an assertion fired
before the driver call) or exactly the set command followed by the
read-back. -/
theorem set_integration_time_trace (d : Driver) (s : State) (t : PyVal) :
    (set_integration_time d s t).2 = [] ∨
    (set_integration_time d s t).2 =
      [Cmd.setIntegrationTime t.toRat, Cmd.getIntegrationTime] := by
  unfold set_integration_time
  split
  · exact Or.inl rfl
  · split
    · dsimp only
      split
      · exact Or.inr rfl
      · exact Or.inr rfl
    · exact Or.inl rfl

/-- Every command `get_spectrum` issues is a status query, the start command,
the scan-data fetch, or a sleep. -/
theorem get_spectrum_trace_shape (d : Driver) (fuel : ℕ) (s : State)
    (fn : Option String) (c : Cmd) (hc : c ∈ (get_spectrum d fuel s fn).2) :
    c = Cmd.getStatus ∨ c = Cmd.startScan ∨ c = Cmd.getScanData ∨
    ∃ q, c = Cmd.sleep q := by
  by_cases hflag : (getStatusStep d s).status_idle_soft_trig = false
  · have hb : Nat.testBit (d.statusWords s.statusCalls) 1 = false := by
      rw [← getStatusStep_idle_soft]; exact hflag
    rw [get_spectrum_abort d fuel s fn hb] at hc
    simp only [List.mem_singleton] at hc
    exact Or.inl hc
  · have hflag' : (getStatusStep d s).status_idle_soft_trig = true := by
      rcases Bool.eq_false_or_eq_true
          ((getStatusStep d s).status_idle_soft_trig) with h1 | h1
      · exact h1
      · exact absurd h1 hflag
    rcases hsw : scanWait d fuel (getStatusStep d s) with ⟨r1, wtr⟩
    have hwtr : ∀ c2, c2 ∈ wtr →
        c2 = Cmd.sleep ((getStatusStep d s).integration_time_s / 10) ∨
        c2 = Cmd.getStatus := by
      intro c2 h2
      exact scanWait_trace_shape d fuel (getStatusStep d s) c2
        (by rw [hsw]; exact h2)
    cases r1 with
    | none =>
      rw [get_spectrum_eq_hang d fuel s fn wtr hflag' hsw] at hc
      simp only [List.mem_cons] at hc
      rcases hc with h | h | h
      · exact Or.inl h
      · exact Or.inr (Or.inl h)
      · rcases hwtr c h with h1 | h1
        · exact Or.inr (Or.inr (Or.inr ⟨_, h1⟩))
        · exact Or.inl h1
    | some s2 =>
      rw [get_spectrum_eq_ok d fuel s fn s2 wtr hflag' hsw] at hc
      simp only [List.mem_cons, List.mem_append, List.mem_singleton] at hc
      rcases hc with h | h | h | h | h
      · exact Or.inl h
      · exact Or.inr (Or.inl h)
      · rcases hwtr c h with h1 | h1
        · exact Or.inr (Or.inr (Or.inr ⟨_, h1⟩))
        · exact Or.inl h1
      · exact Or.inr (Or.inr (Or.inl h))
      · simp at h

/-- No public method call ever issues the wavelength-table query. -/
theorem runCall_no_wavelength (d : Driver) (s : State) (c : Call) :
    Cmd.getWavelengthData ∉ (runCall d s c).2 := by
  intro hm
  cases c with
  | getIntegrationTime =>
    simp only [runCall, get_integration_time_op, List.mem_singleton] at hm
    exact Cmd.noConfusion hm
  | setIntegrationTime t =>
    rcases hst : set_integration_time d s t with ⟨r, tr⟩
    have htr : tr = [] ∨
        tr = [Cmd.setIntegrationTime t.toRat, Cmd.getIntegrationTime] := by
      have h0 := set_integration_time_trace d s t
      rw [hst] at h0
      exact h0
    have hm2 : Cmd.getWavelengthData ∈ tr := by
      simp only [runCall] at hm
      rw [hst] at hm
      cases r with
      | ok s1 => exact hm
      | error e => exact hm
    rcases htr with h | h <;> rw [h] at hm2 <;> simp at hm2
  | getSpectrum fuel fn =>
    rcases hgs : get_spectrum d fuel s fn with ⟨r, tr⟩
    have hm2 : Cmd.getWavelengthData ∈ tr := by
      simp only [runCall] at hm
      rw [hgs] at hm
      cases r with
      | notReady s1 => exact hm
      | hang => exact hm
      | ok s1 fw => exact hm
    rcases get_spectrum_trace_shape d fuel s fn Cmd.getWavelengthData
        (by rw [hgs]; exact hm2) with h | h | h | ⟨q, h⟩ <;>
      exact Cmd.noConfusion h
  | close =>
    simp only [runCall, close_op, List.mem_singleton] at hm
    exact Cmd.noConfusion hm

/-- No sequence of public method calls ever issues the wavelength query. -/
theorem runCalls_no_wavelength (d : Driver) :
    ∀ (cs : List Call) (s : State),
      Cmd.getWavelengthData ∉ (runCalls d s cs).2 := by
  intro cs
  induction cs with
  | nil => intro s hm; simp [runCalls] at hm
  | cons c cs2 ih =>
    intro s hm
    simp only [runCalls, List.mem_append] at hm
    rcases hm with h | h
    · exact runCall_no_wavelength d s c h
    · exact ih _ h

/-- C7 counterexample: the code has no guard on `close`, so a second
`close()` call on the same handle without reopening IS reachable — the call
sequence `[close, close]` from a freshly opened instrument issues the driver
close twice, refuting the claim that a second close is not reachable. -/
theorem c7_counterexample :
    ((runCalls dW sW [Call.close, Call.close]).2).count Cmd.close = 2 :=
  rfl

/-- C7 amended: each `close()` call issues the driver close exactly once,
and no other operation (construction included) ever issues a close, so the
driver close is issued exactly as many times as the client calls `close()`;
the code does not prevent a client from calling `close` twice on the same
handle. -/
theorem c7_close_once_amended (d : Driver) (s s2 : State) (fuel : ℕ)
    (fn : Option String) (t : PyVal) :
    (close_op s).2 = [Cmd.close] ∧
    Cmd.close ∉ (init_spectrometer d).2 ∧
    Cmd.close ∉ (get_spectrum d fuel s2 fn).2 ∧
    Cmd.close ∉ (set_integration_time d s2 t).2 ∧
    Cmd.close ∉ (get_integration_time_op d s2).2 := by
  refine ⟨rfl, ?_, ?_, ?_, ?_⟩
  · intro hm
    have htr : (init_spectrometer d).2 = [Cmd.init, Cmd.getDeviceInfo,
        Cmd.getWavelengthData, Cmd.getStatus, Cmd.getIntegrationTime] := rfl
    rw [htr] at hm
    exact absurd hm (by decide)
  · intro hm
    rcases get_spectrum_trace_shape d fuel s2 fn Cmd.close hm with
      h | h | h | ⟨q, h⟩ <;> exact Cmd.noConfusion h
  · intro hm
    rcases set_integration_time_trace d s2 t with h | h <;>
      rw [h] at hm <;> simp at hm
  · intro hm
    simp only [get_integration_time_op, List.mem_singleton] at hm
    exact Cmd.noConfusion hm

/-- Witness for the amended C7 at a concrete state. -/
theorem c7_close_once_amended_witness :
    (close_op sW).2 = [Cmd.close] :=
  (c7_close_once_amended dW sW sW 1 none (PyVal.int 1)).1

/-- C8: construction opens the instrument then queries device info, the
wavelength table, the status and the integration time, exactly once each and
in that order, storing the returned values; and no later operation — indeed
no sequence of public method calls — ever re-reads the wavelength table. -/
theorem c8_init_sequence (d : Driver) (s : State) (fuel : ℕ)
    (fn : Option String) (t : PyVal) (cs : List Call) :
    (init_spectrometer d).2 =
      [Cmd.init, Cmd.getDeviceInfo, Cmd.getWavelengthData,
        Cmd.getStatus, Cmd.getIntegrationTime] ∧
    (init_spectrometer d).1.wavelength_data =
      (List.range 3648).map d.wavelengthData ∧
    (init_spectrometer d).1.device_info = (List.range 5).map d.deviceInfo ∧
    (init_spectrometer d).1.status = d.statusWords 0 ∧
    (init_spectrometer d).1.integration_time_s = d.integrationTimes 0 ∧
    Cmd.getWavelengthData ∉ (get_spectrum d fuel s fn).2 ∧
    Cmd.getWavelengthData ∉ (set_integration_time d s t).2 ∧
    Cmd.getWavelengthData ∉ (get_integration_time_op d s).2 ∧
    Cmd.getWavelengthData ∉ (close_op s).2 ∧
    Cmd.getWavelengthData ∉ (runCalls d s cs).2 := by
  refine ⟨rfl, rfl, rfl, rfl, rfl, ?_, ?_, ?_, ?_, runCalls_no_wavelength d cs s⟩
  · intro hm
    rcases get_spectrum_trace_shape d fuel s fn Cmd.getWavelengthData hm with
      h | h | h | ⟨q, h⟩ <;> exact Cmd.noConfusion h
  · intro hm
    rcases set_integration_time_trace d s t with h | h <;>
      rw [h] at hm <;> simp at hm
  · intro hm
    simp only [get_integration_time_op, List.mem_singleton] at hm
    exact Cmd.noConfusion hm
  · intro hm
    simp only [close_op, List.mem_singleton] at hm
    exact Cmd.noConfusion hm

/-- Witness for C8 at the concrete driver `dW`. -/
theorem c8_init_sequence_witness :
    (init_spectrometer dW).2 =
      [Cmd.init, Cmd.getDeviceInfo, Cmd.getWavelengthData,
        Cmd.getStatus, Cmd.getIntegrationTime] :=
  (c8_init_sequence dW sW 1 none (PyVal.int 1) []).1

/-- Witness for C9 on a driver whose status word is always 0. -/
theorem c9_abort_frame_witness :
    (getStatusStep dW0 sW0).scan_data = sW0.scan_data ∧
    (getStatusStep dW0 sW0).integration_time_s = sW0.integration_time_s :=
  ⟨(c9_abort_frame dW0 2 sW0 none (by decide)).2.1,
    (c9_abort_frame dW0 2 sW0 none (by decide)).2.2.2.1⟩

end CCS100
